import Mathlib

/-
Verification development for the market-pulse stock-report application
(`src/app.py`).  The Python source is shallowly embedded: pure computation
becomes Lean functions over `ℚ` (Python floats are modelled as exact
rationals), `String` and `List`; the unreliable upstream providers
(Finnhub, yfinance, OpenAI) become explicit oracle/outcome parameters, so
every provider behaviour is a universally quantified input.  Python
exceptions that the source catches are modelled with explicit outcome
constructors; dictionary truthiness and `dict.get` defaulting are modelled
with `Option` (`Option (Option String)` where a JSON value can itself be
null).  String helpers are re-implemented over `List Char` (rather than
Lean's `Substring`-based versions) so that they compute by `decide`; they
implement the ASCII behaviour of the Python originals, which is the only
part the program exercises.
-/

/- ---------------------------------------------------------------------
Python string primitives
--------------------------------------------------------------------- -/

/-- Drop leading whitespace characters from a character list. -/
def dropWs : List Char → List Char
  | [] => []
  | c :: rest => if c.isWhitespace then dropWs rest else c :: rest

/-- Model of Python `str.strip()`: remove leading and trailing whitespace. -/
def pyStrip (s : String) : String :=
  String.mk ((dropWs (dropWs s.toList).reverse).reverse)

/-- Model of Python `str.upper()` (ASCII case mapping, which is all the
source ever upper-cases: ticker fragments such as `2330.tw`). -/
def pyUpper (s : String) : String :=
  String.mk (s.toList.map Char.toUpper)

/-- Model of Python `str.lower()` (ASCII case mapping). -/
def pyLower (s : String) : String :=
  String.mk (s.toList.map Char.toLower)

/-- Model of Python `str.isdigit()` restricted to ASCII digits: true for a
non-empty all-digit string.  (Python additionally accepts some non-ASCII
digit code points; the program only feeds it Taiwan exchange IDs.) -/
def pyIsdigit (s : String) : Bool :=
  !(s.toList.isEmpty) && s.toList.all Char.isDigit

/-- Model of Python `c in s` for a single character `c`. -/
def strContainsChar (s : String) (c : Char) : Bool :=
  s.toList.contains c

/-- Model of Python `s.endswith(suffix)`. -/
def strEndsWith (s suffixStr : String) : Bool :=
  List.isSuffixOf suffixStr.toList s.toList

/-- Model of Python `a in b` (substring containment). -/
def listContainsSub : List Char → List Char → Bool
  | sep, [] => sep.isEmpty
  | sep, c :: rest => List.isPrefixOf sep (c :: rest) || listContainsSub sep rest

/-- Model of Python `a in b` on strings. -/
def pyInStr (a b : String) : Bool :=
  listContainsSub a.toList b.toList

/-- Split a character list at the first occurrence of `sep`; `none` when
`sep` does not occur. -/
def splitOnceAux (sep : List Char) : List Char → Option (List Char × List Char)
  | [] => none
  | c :: rest =>
    if List.isPrefixOf sep (c :: rest) then some ([], (c :: rest).drop sep.length)
    else
      match splitOnceAux sep rest with
      | some p => some (c :: p.1, p.2)
      | none => none

/-- Model of Python `s.split(sep, 1)`: `some (before, after)` when `sep`
occurs in `s` (split at the first occurrence), `none` when it does not
(Python then returns the one-element list `[s]`). -/
def pySplitOnce (s sep : String) : Option (String × String) :=
  match splitOnceAux sep.toList s.toList with
  | some p => some (String.mk p.1, String.mk p.2)
  | none => none

/-- Fuel-driven repeated split; the fuel is set to the string length, which
bounds the number of separator occurrences, so the result agrees with
Python `str.split(sep)` for a non-empty separator. -/
def splitOnFuel (sep : List Char) : ℕ → List Char → List (List Char)
  | 0, l => [l]
  | fuel + 1, l =>
    match splitOnceAux sep l with
    | some p => p.1 :: splitOnFuel sep fuel p.2
    | none => [l]

/-- Model of Python `s.split(sep)` for a non-empty separator. -/
def pySplitAll (s sep : String) : List String :=
  (splitOnFuel sep.toList s.toList.length s.toList).map String.mk

/- ---------------------------------------------------------------------
Python float values and rounding
--------------------------------------------------------------------- -/

/-- A pandas/NumPy float value: a finite number (modelled exactly as a
rational), positive or negative infinity, or NaN.  Signed zero is not
modelled (the program never distinguishes it). -/
inductive PF where
  | num (q : ℚ)
  | pinf
  | ninf
  | nan
deriving DecidableEq

/-- IEEE negation on modelled floats. -/
def PF.neg : PF → PF
  | .num q => .num (-q)
  | .pinf => .ninf
  | .ninf => .pinf
  | .nan => .nan

/-- IEEE addition on modelled floats. -/
def PF.add : PF → PF → PF
  | .nan, _ => .nan
  | _, .nan => .nan
  | .num a, .num b => .num (a + b)
  | .num _, .pinf => .pinf
  | .num _, .ninf => .ninf
  | .pinf, .num _ => .pinf
  | .ninf, .num _ => .ninf
  | .pinf, .pinf => .pinf
  | .ninf, .ninf => .ninf
  | .pinf, .ninf => .nan
  | .ninf, .pinf => .nan

/-- IEEE subtraction on modelled floats. -/
def PF.sub (a b : PF) : PF := PF.add a (PF.neg b)

/-- IEEE division on modelled floats: finite/0 gives a signed infinity
(NaN for 0/0), finite/infinity gives 0. -/
def PF.div : PF → PF → PF
  | .nan, _ => .nan
  | _, .nan => .nan
  | .num a, .num b =>
    if b = 0 then (if a = 0 then .nan else if 0 < a then .pinf else .ninf)
    else .num (a / b)
  | .num _, .pinf => .num 0
  | .num _, .ninf => .num 0
  | .pinf, .num b => if 0 ≤ b then .pinf else .ninf
  | .ninf, .num b => if 0 ≤ b then .ninf else .pinf
  | .pinf, .pinf => .nan
  | .pinf, .ninf => .nan
  | .ninf, .pinf => .nan
  | .ninf, .ninf => .nan

/-- Round-half-to-even on rationals, Python's `round` tie convention. -/
def roundHalfEven (q : ℚ) : ℤ :=
  let f := ⌊q⌋
  let r := q - (f : ℚ)
  if r < 1/2 then f
  else if r > 1/2 then f + 1
  else if f % 2 = 0 then f else f + 1

/-- Model of Python `round(x, nd)` on the exact-rational float model. -/
def pyRound (nd : ℕ) (q : ℚ) : ℚ :=
  (roundHalfEven (q * (10 : ℚ) ^ nd) : ℚ) / (10 : ℚ) ^ nd

/-- `round(x, 2)` lifted to modelled floats: `round` of NaN/inf is itself. -/
def PF.round2 : PF → PF
  | .num q => .num (pyRound 2 q)
  | x => x

/- ---------------------------------------------------------------------
Retry-wrapped provider fetches (`get_finnhub_json`, the `yf.download`
loop in `get_historical_data`)
--------------------------------------------------------------------- -/

/-- Outcome of one attempted Finnhub HTTP call: an exception (transport
error or non-2xx `raise_for_status`) or a decoded JSON payload. -/
inductive FetchOutcome (α : Type) where
  | failure
  | success (val : α)
deriving DecidableEq

/-- `get_finnhub_json`: up to 3 attempts, returning the first successful
payload, or the empty dict `emptyVal` after 3 failures.  The second
component instruments the loop with the number of attempts performed. -/
def get_finnhub_json {α : Type} (emptyVal : α) :
    FetchOutcome α → FetchOutcome α → FetchOutcome α → α × ℕ
  | .success v, _, _ => (v, 1)
  | .failure, .success v, _ => (v, 2)
  | .failure, .failure, .success v => (v, 3)
  | .failure, .failure, .failure => (emptyVal, 3)

/- ---------------------------------------------------------------------
Quote normalization (`get_quote`)
--------------------------------------------------------------------- -/

/-- The decoded Finnhub quote payload: each short-code field is present or
absent, and the dict may carry further keys (the live endpoint also
returns `d` and `t`), which matter only for Python dict truthiness. -/
structure QuoteData where
  c : Option ℚ
  o : Option ℚ
  h : Option ℚ
  l : Option ℚ
  pc : Option ℚ
  dp : Option ℚ
  extraKeys : Bool
deriving DecidableEq

/-- Python truthiness of the quote dict: non-empty. -/
def QuoteData.isTruthy (d : QuoteData) : Bool :=
  d.c.isSome || d.o.isSome || d.h.isSome || d.l.isSome || d.pc.isSome ||
    d.dp.isSome || d.extraKeys

/-- A normalized quote field: a number or the `'N/A'` sentinel. -/
inductive QVal where
  | num (q : ℚ)
  | na
deriving DecidableEq

/-- The normalized 7-key quote structure produced by `get_quote`. -/
structure Quote where
  current_price : QVal
  openPrice : QVal
  high : QVal
  low : QVal
  previous_close : QVal
  daily_change : QVal
  volume : QVal
deriving DecidableEq

/-- `get_quote` on a decoded payload.  An empty (falsy) payload yields the
empty dict (`Except.ok none`).  On a truthy payload the source evaluates
`round(data.get(k, 'N/A'), 4)` for each of the six short-codes in order;
the first absent field makes `round` throw `TypeError` on the `'N/A'`
string.  Since the raised exception is the same whichever field is absent,
the embedding collapses the sequential evaluation into one simultaneous
match. -/
def get_quote (data : QuoteData) : Except String (Option Quote) :=
  if data.isTruthy then
    match data.c, data.o, data.h, data.l, data.pc, data.dp with
    | some qc, some qo, some qh, some ql, some qpc, some qdp =>
      Except.ok (some
        { current_price := QVal.num (pyRound 4 qc)
          openPrice := QVal.num (pyRound 4 qo)
          high := QVal.num (pyRound 4 qh)
          low := QVal.num (pyRound 4 ql)
          previous_close := QVal.num (pyRound 4 qpc)
          daily_change := QVal.num (pyRound 4 qdp)
          volume := QVal.na })
    | _, _, _, _, _, _ => Except.error "TypeError"
  else Except.ok none

/-- Number of keys in the Python dict `get_quote` returned (0 for the
empty dict or an exception, 7 for the full structure). -/
def quoteKeyCount : Except String (Option Quote) → ℕ
  | Except.ok (some _) => 7
  | Except.ok none => 0
  | Except.error _ => 0

/- ---------------------------------------------------------------------
Company profile (`get_company_profile`) and the resolution gate
--------------------------------------------------------------------- -/

/-- The fields of a non-empty profile dict.  A field value of `none`
models an absent or JSON-null entry (both are falsy under `dict.get`). -/
structure ProfileFields where
  name : Option String
  industry : Option String
  country : Option String
deriving DecidableEq

/-- A profile dict: `none` is the empty dict `{}` (falsy). -/
abbrev Profile := Option ProfileFields

/-- Python truthiness of a name value: present, non-null and non-empty. -/
def nameTruthy : Option String → Bool
  | some s => !(s == "")
  | none => false

/-- The acceptance gate used everywhere in resolution, and also the
fallback trigger inside `get_company_profile` itself: the source tests
`profile and profile.get('name')`. -/
def profileAccepted (p : Profile) : Bool :=
  match p with
  | none => false
  | some f => nameTruthy f.name

/-- The yfinance `Ticker(...).info` dict, restricted to the keys the
source reads.  The outer `Option` models key presence, the inner one a
JSON-null value. -/
structure YfInfo where
  longName : Option (Option String)
  shortName : Option (Option String)
  sector : Option (Option String)
  country : Option (Option String)
  symbol : Option (Option String)
deriving DecidableEq

/-- Outcome of reading `yf.Ticker(x).info`: an exception or an info dict. -/
inductive YfResult where
  | raise
  | info (i : YfInfo)
deriving DecidableEq

/-- Model of Python `info.get(key, default)` where the stored value may be
null: an absent key yields the default, a present value (including null)
is returned as-is. -/
def getStrD (v : Option (Option String)) (d : String) : Option String :=
  match v with
  | none => some d
  | some x => x

/-- Model of `info.get(key)` used as a truthiness test that then reads the
string: yields the string exactly when the value is present, non-null and
non-empty. -/
def truthyStr (v : Option (Option String)) : Option String :=
  match v with
  | some (some s) => if s == "" then none else some s
  | _ => none

/-- `get_company_profile`: keep the primary (Finnhub) profile when it has
a truthy name, otherwise build a fallback dict from the yfinance info,
defaulting each absent key to `'Unknown'`; a yfinance exception degrades
to the empty dict. -/
def get_company_profile (primary : Profile) (yfr : YfResult) : Profile :=
  if profileAccepted primary then primary
  else
    match yfr with
    | .raise => none
    | .info i =>
      some { name := getStrD i.longName "Unknown"
             industry := getStrD i.sector "Unknown"
             country := getStrD i.country "Unknown" }

/- ---------------------------------------------------------------------
Symbol resolution cascade (`resolve_symbol`)
--------------------------------------------------------------------- -/

/-- The hard-coded alias table `SYMBOL_MAPPINGS`. -/
def SYMBOL_MAPPINGS : List (String × String) :=
  [("台積電", "2330.TW"), ("TSMC", "2330.TW"),
   ("台灣積體電路製造", "2330.TW"),
   ("Taiwan Semiconductor Manufacturing", "2330.TW")]

/-- One Finnhub search result, restricted to the keys the source reads
(both are JSON strings when present; the provider schema never returns
non-string values for them). -/
structure SearchItem where
  symbol : Option String
  type : Option String
deriving DecidableEq

/-- Outcome of a chat-completion call: an exception or the reply text. -/
inductive AIResult where
  | raise
  | reply (content : String)
deriving DecidableEq

/-- The session cache `session["symbol_cache"]`. -/
abbrev Cache := List (String × String)

/-- The provider environment one `resolve_symbol` call runs against:
`profile` is the behaviour of `get_company_profile` per candidate symbol,
`searchResults` is `get_finnhub_json("search", ...).get('result', [])`
for this input (a failed fetch yields `[]`), `ai` the symbol-inference
completion, and `yfi` the behaviour of `yf.Ticker(x).info` per symbol. -/
structure ResolveEnv where
  profile : String → Profile
  searchResults : List SearchItem
  ai : AIResult
  yfi : String → YfResult

/-- Instrumentation of one `resolve_symbol` call: how many validation
(`get_company_profile`) calls ran, and whether the Finnhub-search, OpenAI
and yfinance fallback stages were entered. -/
structure RStats where
  validations : ℕ
  searchInvoked : Bool
  aiInvoked : Bool
  yfInvoked : Bool
deriving DecidableEq

/-- Result of one `resolve_symbol` call: the returned value, the session
cache afterwards, and the stage instrumentation. -/
structure ROut where
  result : Option String
  cache : Cache
  stats : RStats
deriving DecidableEq

/-- Split at the last `'.'` (Python `rsplit('.', 1)`); only evaluated
under the `'.' in input_str` guard. -/
def rsplitLastDot (s : String) : String × String :=
  match splitOnceAux ['.'] s.toList.reverse with
  | some p => (String.mk p.2.reverse, String.mk p.1.reverse)
  | none => (s, "")

/-- The direct-symbol normalization `parts[0].upper() + '.' + parts[1].upper()`. -/
def dotNormalize (s : String) : String :=
  pyUpper (rsplitLastDot s).1 ++ "." ++ pyUpper (rsplitLastDot s).2

/-- The Finnhub-search result loop: accept the first result typed
`Common Stock` with a `.TW`/`.TWO` symbol that passes the profile gate.
Returns the accepted symbol (if any) and the number of validation calls
the loop performed. -/
def searchLoop (env : ResolveEnv) : List SearchItem → Option String × ℕ
  | [] => (none, 0)
  | r :: rest =>
    if r.type == some "Common Stock" &&
        (strEndsWith (r.symbol.getD "") ".TW" || strEndsWith (r.symbol.getD "") ".TWO") then
      if profileAccepted (env.profile (r.symbol.getD "")) then (some (r.symbol.getD ""), 1)
      else
        ((searchLoop env rest).1, (searchLoop env rest).2 + 1)
    else searchLoop env rest

/-- Outcome of the yfinance suffix-probing loop. -/
inductive YfProbeRes where
  | raised
  | found (s : String)
  | exhausted
deriving DecidableEq

/-- The yfinance suffix-probing loop: for each suffix read
`yf.Ticker(input + suffix).info`; an exception aborts the whole fallback
stage (the `try` wraps the loop and the anchor search together); a truthy
`symbol` entry ending in the suffix is accepted. -/
def yfProbeLoop (env : ResolveEnv) (input : String) : List String → YfProbeRes
  | [] => .exhausted
  | suf :: rest =>
    match env.yfi (input ++ suf) with
    | .raise => .raised
    | .info i =>
      match truthyStr i.symbol with
      | some s => if strEndsWith s suf then .found s else yfProbeLoop env input rest
      | none => yfProbeLoop env input rest

/-- Outcome of the anchor-instrument name search. -/
inductive AnchorRes where
  | raised
  | matched
  | nomatch
deriving DecidableEq

/-- The last-resort name search against the `2330.TW` anchor instrument:
substring-match the lower-cased input against `longName` then
`shortName`.  A null stored name makes Python call `.lower()` on `None`,
raising inside the same `try` (hence `raised`). -/
def yfAnchor (env : ResolveEnv) (input : String) : AnchorRes :=
  match env.yfi "2330.TW" with
  | .raise => .raised
  | .info i =>
    match getStrD i.longName "" with
    | none => .raised
    | some ln =>
      if pyInStr (pyLower input) (pyLower ln) then .matched
      else
        match getStrD i.shortName "" with
        | none => .raised
        | some sn => if pyInStr (pyLower input) (pyLower sn) then .matched else .nomatch

/-- Cascade stage 7, the yfinance fallback (suffix probing then anchor
name search); any exception in it is caught and resolution fails. -/
def resolveStage6 (env : ResolveEnv) (c : Cache) (input : String) (v : ℕ) : ROut :=
  match yfProbeLoop env input [".TW", ".TWO"] with
  | .found s => ⟨some s, (input, s) :: c, ⟨v, true, true, true⟩⟩
  | .raised => ⟨none, c, ⟨v, true, true, true⟩⟩
  | .exhausted =>
    match yfAnchor env input with
    | .matched => ⟨some "2330.TW", (input, "2330.TW") :: c, ⟨v, true, true, true⟩⟩
    | _ => ⟨none, c, ⟨v, true, true, true⟩⟩

/-- Cascade stage 6, OpenAI symbol inference: the stripped reply must end
in `.TW`/`.TWO` and pass the profile gate; a completion exception is
caught and falls through. -/
def resolveStage5 (env : ResolveEnv) (c : Cache) (input : String) (v : ℕ) : ROut :=
  match env.ai with
  | .raise => resolveStage6 env c input v
  | .reply content =>
    if strEndsWith (pyStrip content) ".TW" || strEndsWith (pyStrip content) ".TWO" then
      if profileAccepted (env.profile (pyStrip content)) then
        ⟨some (pyStrip content), (input, pyStrip content) :: c, ⟨v + 1, true, true, false⟩⟩
      else resolveStage6 env c input (v + 1)
    else resolveStage6 env c input v

/-- Cascade stage 5, the Finnhub text search. -/
def resolveStage4 (env : ResolveEnv) (c : Cache) (input : String) (v : ℕ) : ROut :=
  match (searchLoop env env.searchResults).1 with
  | some sym => ⟨some sym, (input, sym) :: c, ⟨v + (searchLoop env env.searchResults).2, true, false, false⟩⟩
  | none => resolveStage5 env c input (v + (searchLoop env env.searchResults).2)

/-- Cascade stage 4, numeric-ID suffix probing: `.TW` then `.TWO`; a
purely numeric input that fails both probes returns `None` immediately,
never reaching the search/inference stages. -/
def resolveStage3 (env : ResolveEnv) (c : Cache) (input : String) (v : ℕ) : ROut :=
  if pyIsdigit input then
    if profileAccepted (env.profile (input ++ ".TW")) then
      ⟨some (input ++ ".TW"), (input, input ++ ".TW") :: c, ⟨v + 1, false, false, false⟩⟩
    else if profileAccepted (env.profile (input ++ ".TWO")) then
      ⟨some (input ++ ".TWO"), (input, input ++ ".TWO") :: c, ⟨v + 2, false, false, false⟩⟩
    else ⟨none, c, ⟨v + 2, false, false, false⟩⟩
  else resolveStage4 env c input v

/-- Cascade stage 3, direct-symbol normalization for inputs containing a
dot. -/
def resolveStage2 (env : ResolveEnv) (c : Cache) (input : String) (v : ℕ) : ROut :=
  if strContainsChar input '.' then
    if profileAccepted (env.profile (dotNormalize input)) then
      ⟨some (dotNormalize input), (input, dotNormalize input) :: c, ⟨v + 1, false, false, false⟩⟩
    else resolveStage3 env c input (v + 1)
  else resolveStage3 env c input v

/-- `resolve_symbol`: strip the raw input, reject empty input, then run
the cascade — cache lookup, static mapping, direct symbol, numeric
probing, Finnhub search, OpenAI inference, yfinance fallback.  Every
acceptance writes the `(stripped input, ticker)` pair into the session
cache; no exception escapes (each fallible stage catches its own). -/
def resolve_symbol (env : ResolveEnv) (c : Cache) (raw : String) : ROut :=
  if pyStrip raw = "" then ⟨none, c, ⟨0, false, false, false⟩⟩
  else
    match List.lookup (pyStrip raw) c with
    | some s => ⟨some s, c, ⟨0, false, false, false⟩⟩
    | none =>
      match List.lookup (pyStrip raw) SYMBOL_MAPPINGS with
      | some sym =>
        if profileAccepted (env.profile sym) then
          ⟨some sym, (pyStrip raw, sym) :: c, ⟨1, false, false, false⟩⟩
        else resolveStage2 env c (pyStrip raw) 1
      | none => resolveStage2 env c (pyStrip raw) 0

/- ---------------------------------------------------------------------
Technical indicators (`calculate_rsi`, `get_historical_data`)
--------------------------------------------------------------------- -/

/-- One OHLCV bar of the downloaded daily history. -/
structure Bar where
  openP : ℚ
  high : ℚ
  low : ℚ
  close : ℚ
  volume : ℚ
deriving DecidableEq

/-- Last value of `series.rolling(window).mean()` (default
`min_periods = window`): NaN while fewer than `window` values exist. -/
def rollingMeanLast (window : ℕ) (xs : List ℚ) : Option ℚ :=
  if xs.length < window then none
  else some ((xs.drop (xs.length - window)).sum / ((xs.drop (xs.length - window)).length : ℚ))

/-- Last value of `series.rolling(window, min_periods=1).mean()`: the mean
of the trailing `min window n` values (the source only evaluates it on
non-empty series). -/
def lastRollingMean (window : ℕ) (xs : List ℚ) : ℚ :=
  (xs.drop (xs.length - window)).sum / ((xs.drop (xs.length - window)).length : ℚ)

/-- `series.diff(1)` without its leading NaN: consecutive differences. -/
def priceDeltas (closes : List ℚ) : List ℚ :=
  (closes.zip closes.tail).map (fun p => p.2 - p.1)

/-- `delta.where(delta > 0, 0)`: the gain series.  The leading NaN of
`diff` compares false against 0 and becomes 0. -/
def gainsOf (closes : List ℚ) : List ℚ :=
  match closes with
  | [] => []
  | _ :: _ => 0 :: (priceDeltas closes).map (fun d => if 0 < d then d else 0)

/-- `-delta.where(delta < 0, 0)`: the loss series (non-negative). -/
def lossesOf (closes : List ℚ) : List ℚ :=
  match closes with
  | [] => []
  | _ :: _ => 0 :: (priceDeltas closes).map (fun d => if d < 0 then -d else 0)

/-- `calculate_rsi`: Wilder-style RSI over 14-period rolling means with
`min_periods=1`, evaluated at the last bar.  The float division
`avg_gain / avg_loss` is taken in the IEEE model: a zero average loss
yields +inf (RSI 100) when gains exist and NaN when both averages are
zero.  (pandas would raise on an empty series; the caller guards that.) -/
def calculate_rsi (closes : List ℚ) : PF :=
  PF.sub (PF.num 100)
    (PF.div (PF.num 100)
      (PF.add (PF.num 1)
        (PF.div (PF.num (lastRollingMean 14 (gainsOf closes)))
                (PF.num (lastRollingMean 14 (lossesOf closes))))))

/-- Last value of `series.ewm(span, adjust=False).mean()`: the recursive
exponential form seeded with the first value (0 is never observed: the
caller guards the empty series). -/
def emaLast (span : ℕ) (xs : List ℚ) : ℚ :=
  match xs with
  | [] => 0
  | x :: rest => rest.foldl (fun acc v => (2 / ((span : ℚ) + 1)) * v + (1 - 2 / ((span : ℚ) + 1)) * acc) x

/-- `round(df['Close'].rolling(50).mean().iloc[-1], 2)`. -/
def ma50Of (closes : List ℚ) : PF :=
  match rollingMeanLast 50 closes with
  | none => PF.nan
  | some m => PF.num (pyRound 2 m)

/-- `round(series.tail(20).min(), 2)`: pandas `tail(20)` returns the last
`min 20 n` rows, so the minimum exists for every non-empty series; the
minimum of an empty series is NaN. -/
def tailMinPF (xs : List ℚ) : PF :=
  match xs.drop (xs.length - 20) with
  | [] => PF.nan
  | x :: t => PF.num (pyRound 2 (t.foldl min x))

/-- `round(series.tail(20).max(), 2)`. -/
def tailMaxPF (xs : List ℚ) : PF :=
  match xs.drop (xs.length - 20) with
  | [] => PF.nan
  | x :: t => PF.num (pyRound 2 (t.foldl max x))

/-- The technical snapshot dict built by `get_historical_data`. -/
structure Technical where
  ma50 : PF
  rsi : PF
  macd : PF
  support : PF
  resistance : PF
  volume : ℚ
deriving DecidableEq

/-- The indicator computations of `get_historical_data` on a non-empty
downloaded frame. -/
def computeTechnical (df : List Bar) : Technical :=
  { ma50 := ma50Of (df.map Bar.close)
    rsi := PF.round2 (calculate_rsi (df.map Bar.close))
    macd := PF.num (pyRound 2 (emaLast 12 (df.map Bar.close) - emaLast 26 (df.map Bar.close)))
    support := tailMinPF (df.map Bar.low)
    resistance := tailMaxPF (df.map Bar.high)
    volume := (df.map Bar.volume).getLastD 0 }

/-- Outcome of one `yf.download` attempt: an exception or a (possibly
empty) frame. -/
inductive YfFetch where
  | raise
  | ret (bars : List Bar)
deriving DecidableEq

/-- Whether an attempt failed to produce data (exception or empty frame). -/
def yfFailed : YfFetch → Bool
  | .raise => true
  | .ret bars => bars.isEmpty

/-- The 3-attempt `yf.download` loop of `get_historical_data`: break on
the first non-empty frame; exceptions and empty frames just consume an
attempt (the frame variable stays empty).  The second component
instruments the loop with the number of attempts performed. -/
def yfDownloadLoop (a1 a2 a3 : YfFetch) : List Bar × ℕ :=
  match a1 with
  | .ret (b :: bs) => (b :: bs, 1)
  | _ =>
    match a2 with
    | .ret (b :: bs) => (b :: bs, 2)
    | _ =>
      match a3 with
      | .ret (b :: bs) => (b :: bs, 3)
      | _ => ([], 3)

/-- `get_historical_data`: after the retry loop an empty frame returns the
empty frame/dict pair; otherwise the indicator snapshot is computed. -/
def get_historical_data (a1 a2 a3 : YfFetch) : List Bar × Option Technical :=
  if (yfDownloadLoop a1 a2 a3).1.isEmpty then ([], none)
  else ((yfDownloadLoop a1 a2 a3).1, some (computeTechnical (yfDownloadLoop a1 a2 a3).1))

/- ---------------------------------------------------------------------
News aggregation (`get_recent_news`)
--------------------------------------------------------------------- -/

/-- One raw Finnhub news item as the source consumes it (`datetimeRaw`
models `x.get("datetime", ...)`: absent has no timestamp and both sort
key and formatting fall back). -/
structure RawNews where
  headline : String
  summary : String
  datetimeRaw : Option Int
  source : String
  url : String
deriving DecidableEq

/-- A normalized news item. -/
structure NewsItem where
  headline : String
  summary : String
  datetime : String
  source : String
  url : String
deriving DecidableEq

/-- The company-news payload: a JSON list or anything else (a failed fetch
returns the empty dict, which is not a list). -/
inductive NewsPayload where
  | list (items : List RawNews)
  | nonList
deriving DecidableEq

/-- Parse one generated line: split once at `" - "`, strip both sides,
and keep only lines where both sides are non-empty. -/
def parseNewsLine (today line : String) : Option NewsItem :=
  match pySplitOnce line " - " with
  | some p =>
    if pyStrip p.1 ≠ "" ∧ pyStrip p.2 ≠ "" then
      some ⟨pyStrip p.1, pyStrip p.2, today, "AI Generated", ""⟩
    else none
  | none => none

/-- The synthetic-news generator body: strip the completion, split into
lines, look at the first 10 lines only, and keep the cleanly split ones. -/
def synthNews (today content : String) : List NewsItem :=
  ((pySplitAll (pyStrip content) "\n").take 10).filterMap (parseNewsLine today)

/-- The synthetic-news fallback: a completion exception degrades to no
news. -/
def synthBranch (today : String) (ai : AIResult) : List NewsItem :=
  match ai with
  | .raise => []
  | .reply content => synthNews today content

/-- Timestamp conversion of one provider item: `utcfromtimestamp` is
modelled by the oracle `fmt` (`none` = conversion failure), and an absent
timestamp key raises inside the same `try`; both fall back to the
placeholder. -/
def formatTs (fmt : Int → Option String) (n : RawNews) : NewsItem :=
  { headline := n.headline
    summary := n.summary
    datetime :=
      match n.datetimeRaw with
      | some ts => (fmt ts).getD "未知時間"
      | none => "未知時間"
    source := n.source
    url := n.url }

/-- `get_recent_news`: a non-empty provider list is sorted by raw
timestamp descending, capped to 10 and timestamp-formatted; an empty or
non-list payload invokes the synthetic generator. -/
def get_recent_news (today : String) (fmt : Int → Option String)
    (payload : NewsPayload) (ai : AIResult) : List NewsItem :=
  match payload with
  | .list items =>
    if items.isEmpty then synthBranch today ai
    else ((items.mergeSort (fun a b => decide ((b.datetimeRaw.getD 0) ≤ (a.datetimeRaw.getD 0)))).take 10).map (formatTs fmt)
  | .nonList => synthBranch today ai

/- ---------------------------------------------------------------------
Concrete provider environments used by witnesses
--------------------------------------------------------------------- -/

/-- A provider environment whose profile oracle accepts every candidate
and whose other upstreams fail. -/
def envAccept : ResolveEnv :=
  ⟨fun _ => some ⟨some "Taiwan Semiconductor Manufacturing Co Ltd", some "Technology", some "TW"⟩,
   [], AIResult.raise, fun _ => YfResult.raise⟩

/-- A provider environment whose every upstream lookup fails. -/
def envReject : ResolveEnv :=
  ⟨fun _ => none, [], AIResult.raise, fun _ => YfResult.raise⟩

/- ---------------------------------------------------------------------
Theorems
--------------------------------------------------------------------- -/

/-- C1 (amended): when the provider quote response is non-empty and
supplies all six numeric short-codes, `get_quote` returns the full 7-key
structure with each supplied field rounded to 4 decimals and `volume` set
to the `'N/A'` sentinel; when the response is empty, the empty structure
(no keys) is returned instead of the 7-key structure; and when the
response is non-empty but omits a numeric field, the call raises a
`TypeError` (from `round('N/A', 4)`) instead of producing a sentinel. -/
theorem C1_quote_normalization (data : QuoteData) :
    (data.isTruthy = false → get_quote data = Except.ok none) ∧
    (∀ qc qo qh ql qpc qdp : ℚ, data.c = some qc → data.o = some qo → data.h = some qh →
      data.l = some ql → data.pc = some qpc → data.dp = some qdp →
      get_quote data = Except.ok (some
        { current_price := QVal.num (pyRound 4 qc)
          openPrice := QVal.num (pyRound 4 qo)
          high := QVal.num (pyRound 4 qh)
          low := QVal.num (pyRound 4 ql)
          previous_close := QVal.num (pyRound 4 qpc)
          daily_change := QVal.num (pyRound 4 qdp)
          volume := QVal.na })) ∧
    (data.isTruthy = true →
      (data.c = none ∨ data.o = none ∨ data.h = none ∨ data.l = none ∨
        data.pc = none ∨ data.dp = none) →
      get_quote data = Except.error "TypeError") := by
  refine ⟨?_, ?_, ?_⟩
  · intro hfalse
    simp [get_quote, hfalse]
  · intro qc qo qh ql qpc qdp hc ho hh hl hpc hdp
    have ht : data.isTruthy = true := by
      simp [QuoteData.isTruthy, hc]
    simp [get_quote, ht, hc, ho, hh, hl, hpc, hdp]
  · intro ht hmiss
    simp only [get_quote, ht, if_true]
    split
    · rename_i qc qo qh ql qpc qdp heq
      rcases hmiss with h | h | h | h | h | h <;> simp_all
    · rfl

/-- C1 counterexample: the claim asserts that even for an empty provider
response the full 7-key structure is returned with volume marked
unavailable; on the empty response (a Finnhub fetch that failed all 3
attempts returns `{}`) `get_quote` instead returns the empty dict, which
has 0 keys rather than 7. -/
theorem C1_counterexample :
    quoteKeyCount (get_quote ⟨none, none, none, none, none, none, false⟩) = 0 := rfl

/-- C1 witness: a concrete full payload flows through the amended theorem. -/
theorem C1_witness :
    get_quote ⟨some (1/3), some 2, some 3, some 4, some 5, some 6, true⟩ =
      Except.ok (some
        { current_price := QVal.num (pyRound 4 (1/3))
          openPrice := QVal.num (pyRound 4 2)
          high := QVal.num (pyRound 4 3)
          low := QVal.num (pyRound 4 4)
          previous_close := QVal.num (pyRound 4 5)
          daily_change := QVal.num (pyRound 4 6)
          volume := QVal.na }) :=
  (C1_quote_normalization _).2.1 (1/3) 2 3 4 5 6 rfl rfl rfl rfl rfl rfl

/-- C3 (amended): when the primary profile has no truthy name and the
yfinance lookup does not raise, `get_company_profile` builds the fallback
profile whose name is the stored `longName` value when that key is
present (even if null or empty) and the string `'Unknown'` only when the
key is absent; consequently the acceptance gate is satisfied whenever the
`longName` key is entirely absent, but a present null or empty `longName`
is passed through and the gate rejects. -/
theorem C3_profile_default (primary : Profile) (i : YfInfo)
    (hp : profileAccepted primary = false) :
    get_company_profile primary (YfResult.info i) =
      some ⟨getStrD i.longName "Unknown", getStrD i.sector "Unknown",
            getStrD i.country "Unknown"⟩ ∧
    (i.longName = none →
      get_company_profile primary (YfResult.info i) =
        some ⟨some "Unknown", getStrD i.sector "Unknown", getStrD i.country "Unknown"⟩ ∧
      profileAccepted (get_company_profile primary (YfResult.info i)) = true) := by
  constructor
  · simp [get_company_profile, hp]
  · intro hln
    have hgp : get_company_profile primary (YfResult.info i) =
        some ⟨some "Unknown", getStrD i.sector "Unknown", getStrD i.country "Unknown"⟩ := by
      simp [get_company_profile, hp, hln, getStrD]
    exact ⟨hgp, by rw [hgp]; rfl⟩

/-- C3 counterexample: the claim asserts the acceptance gate is satisfied
whenever the primary lookup yields no name and the secondary lookup does
not raise, even with no real name available; but when the yfinance info
carries `longName` present with a null value (`{'longName': None}`), the
null is passed through `info.get('longName', 'Unknown')` unchanged and
the gate rejects the candidate. -/
theorem C3_counterexample :
    profileAccepted
      (get_company_profile none (YfResult.info ⟨some none, none, none, none, none⟩)) = false := rfl

/-- C3 witness: with the `longName` key absent the fallback name is
`'Unknown'` and the gate passes. -/
theorem C3_witness :
    profileAccepted
      (get_company_profile none (YfResult.info ⟨none, none, none, none, none⟩)) = true :=
  ((C3_profile_default none ⟨none, none, none, none, none⟩ rfl).2 rfl).2

/-- C8: both retry wrappers perform at most 3 attempts, and when every
attempt fails (Finnhub: transport error or non-2xx; yfinance: exception
or empty frame) they return their empty result — the empty JSON dict for
`get_finnhub_json`, the empty frame/dict pair for `get_historical_data` —
instead of raising (both loops catch every exception, as the totality of
the embedding reflects). -/
theorem C8_retry_bound {α : Type} (e : α) (o1 o2 o3 : FetchOutcome α) (a1 a2 a3 : YfFetch) :
    (get_finnhub_json e o1 o2 o3).2 ≤ 3 ∧
    (o1 = FetchOutcome.failure → o2 = FetchOutcome.failure → o3 = FetchOutcome.failure →
      (get_finnhub_json e o1 o2 o3).1 = e) ∧
    (yfDownloadLoop a1 a2 a3).2 ≤ 3 ∧
    (yfFailed a1 = true → yfFailed a2 = true → yfFailed a3 = true →
      get_historical_data a1 a2 a3 = ([], none)) := by
  refine ⟨?_, ?_, ?_, ?_⟩
  · cases o1 <;> cases o2 <;> cases o3 <;> simp [get_finnhub_json]
  · intro h1 h2 h3
    subst h1; subst h2; subst h3
    rfl
  · rcases a1 with _ | ⟨_ | _⟩ <;> rcases a2 with _ | ⟨_ | _⟩ <;> rcases a3 with _ | ⟨_ | _⟩ <;>
      simp [yfDownloadLoop]
  · intro h1 h2 h3
    rcases a1 with _ | bs1 <;> rcases a2 with _ | bs2 <;> rcases a3 with _ | bs3 <;>
      simp_all [yfFailed, List.isEmpty_iff, yfDownloadLoop, get_historical_data]

/-- C8 witness: all-failure runs of both wrappers at concrete outcomes. -/
theorem C8_witness :
    (get_finnhub_json (0 : ℕ) FetchOutcome.failure FetchOutcome.failure FetchOutcome.failure).1 = 0 ∧
    get_historical_data YfFetch.raise YfFetch.raise YfFetch.raise = ([], none) :=
  ⟨(C8_retry_bound (0 : ℕ) FetchOutcome.failure FetchOutcome.failure FetchOutcome.failure
      YfFetch.raise YfFetch.raise YfFetch.raise).2.1 rfl rfl rfl,
   (C8_retry_bound (0 : ℕ) FetchOutcome.failure FetchOutcome.failure FetchOutcome.failure
      YfFetch.raise YfFetch.raise YfFetch.raise).2.2.2 rfl rfl rfl⟩

/-- C9: when the news payload is empty or not a list and the synthetic
generator replies, the aggregated news list has at most 10 items, and
every item in it arises from one of the first 10 generated lines that
splits at the `" - "` delimiter into exactly two parts that are non-empty
after stripping — so every line that does not split cleanly is excluded. -/
theorem C9_news_synth (today content : String) (fmt : Int → Option String)
    (payload : NewsPayload)
    (hp : payload = NewsPayload.nonList ∨ payload = NewsPayload.list []) :
    (get_recent_news today fmt payload (AIResult.reply content)).length ≤ 10 ∧
    ∀ item ∈ get_recent_news today fmt payload (AIResult.reply content),
      ∃ line ∈ (pySplitAll (pyStrip content) "\n").take 10,
        parseNewsLine today line = some item ∧
        ∃ pre post, pySplitOnce line " - " = some (pre, post) ∧
          pyStrip pre ≠ "" ∧ pyStrip post ≠ "" := by
  have hred : get_recent_news today fmt payload (AIResult.reply content) =
      synthNews today content := by
    rcases hp with h | h <;> subst h <;> simp [get_recent_news, synthBranch]
  rw [hred]
  constructor
  · have h1 : (synthNews today content).length ≤
        ((pySplitAll (pyStrip content) "\n").take 10).length :=
      List.length_filterMap_le _ _
    have h2 : ((pySplitAll (pyStrip content) "\n").take 10).length ≤ 10 := by
      rw [List.length_take]
      exact min_le_left _ _
    exact le_trans h1 h2
  · intro item hitem
    obtain ⟨line, hline, hparse⟩ := List.mem_filterMap.mp hitem
    refine ⟨line, hline, hparse, ?_⟩
    rcases hsp : pySplitOnce line " - " with _ | p
    · rw [parseNewsLine, hsp] at hparse
      cases hparse
    · obtain ⟨pre, post⟩ := p
      simp only [parseNewsLine, hsp] at hparse
      by_cases hcond : pyStrip pre ≠ "" ∧ pyStrip post ≠ ""
      · exact ⟨pre, post, rfl, hcond.1, hcond.2⟩
      · rw [if_neg hcond] at hparse
        cases hparse

/-- C9 witness: a concrete invocation of the synthetic branch. -/
theorem C9_witness :
    (get_recent_news "2024-01-01" (fun _ => none) (NewsPayload.list [])
      (AIResult.reply "甲 - 乙")).length ≤ 10 :=
  (C9_news_synth "2024-01-01" "甲 - 乙" (fun _ => none) (NewsPayload.list [])
    (Or.inr rfl)).1

/-- The left fold of `min` lands on the seed or in the list. -/
theorem foldl_min_mem (a : ℚ) (xs : List ℚ) : xs.foldl min a ∈ a :: xs := by
  induction xs generalizing a with
  | nil => simp [List.foldl]
  | cons x rest ih =>
    simp only [List.foldl_cons]
    rcases List.mem_cons.mp (ih (min a x)) with h1 | h1
    · rcases min_choice a x with hm | hm
      · rw [h1, hm]
        exact List.mem_cons_self _ _
      · rw [h1, hm]
        exact List.mem_cons_of_mem _ (List.mem_cons_self _ _)
    · exact List.mem_cons_of_mem _ (List.mem_cons_of_mem _ h1)

/-- The left fold of `min` bounds the seed and every element below. -/
theorem foldl_min_le (a : ℚ) (xs : List ℚ) :
    xs.foldl min a ≤ a ∧ ∀ b ∈ xs, xs.foldl min a ≤ b := by
  induction xs generalizing a with
  | nil => exact ⟨le_refl a, by simp⟩
  | cons x rest ih =>
    simp only [List.foldl_cons]
    obtain ⟨h1, h2⟩ := ih (min a x)
    refine ⟨le_trans h1 (min_le_left a x), ?_⟩
    intro b hb
    rcases List.mem_cons.mp hb with rfl | hb2
    · exact le_trans h1 (min_le_right a b)
    · exact h2 b hb2

/-- The left fold of `max` lands on the seed or in the list. -/
theorem foldl_max_mem (a : ℚ) (xs : List ℚ) : xs.foldl max a ∈ a :: xs := by
  induction xs generalizing a with
  | nil => simp [List.foldl]
  | cons x rest ih =>
    simp only [List.foldl_cons]
    rcases List.mem_cons.mp (ih (max a x)) with h1 | h1
    · rcases max_choice a x with hm | hm
      · rw [h1, hm]
        exact List.mem_cons_self _ _
      · rw [h1, hm]
        exact List.mem_cons_of_mem _ (List.mem_cons_self _ _)
    · exact List.mem_cons_of_mem _ (List.mem_cons_of_mem _ h1)

/-- The left fold of `max` bounds the seed and every element above. -/
theorem foldl_max_ge (a : ℚ) (xs : List ℚ) :
    a ≤ xs.foldl max a ∧ ∀ b ∈ xs, b ≤ xs.foldl max a := by
  induction xs generalizing a with
  | nil => exact ⟨le_refl a, by simp⟩
  | cons x rest ih =>
    simp only [List.foldl_cons]
    obtain ⟨h1, h2⟩ := ih (max a x)
    refine ⟨le_trans (le_max_left a x) h1, ?_⟩
    intro b hb
    rcases List.mem_cons.mp hb with rfl | hb2
    · exact le_trans (le_max_right a b) h1
    · exact h2 b hb2

/-- C2 (amended): on any non-empty series, fewer than 50 bars makes MA50
NaN (unavailable), as the claim states; but support and resistance are
always available — for every non-empty series they are the rounded
minimum low and maximum high of the trailing `min 20 n` bars
(`df.drop (df.length - 20)`), because pandas `tail(20)` returns all rows
when fewer than 20 exist; when at least 20 bars exist that window is
exactly the trailing 20 bars. -/
theorem C2_technical_availability (df : List Bar) (hne : df ≠ []) :
    (df.length < 50 → (computeTechnical df).ma50 = PF.nan) ∧
    (∃ m ∈ (df.drop (df.length - 20)).map Bar.low,
      (∀ x ∈ (df.drop (df.length - 20)).map Bar.low, m ≤ x) ∧
      (computeTechnical df).support = PF.num (pyRound 2 m)) ∧
    (∃ M ∈ (df.drop (df.length - 20)).map Bar.high,
      (∀ x ∈ (df.drop (df.length - 20)).map Bar.high, x ≤ M) ∧
      (computeTechnical df).resistance = PF.num (pyRound 2 M)) := by
  have hlen : 1 ≤ df.length := List.length_pos.mpr hne
  have hlowlen : ((df.map Bar.low).drop ((df.map Bar.low).length - 20)).length ≥ 1 := by
    rw [List.length_drop, List.length_map]
    omega
  have hhighlen : ((df.map Bar.high).drop ((df.map Bar.high).length - 20)).length ≥ 1 := by
    rw [List.length_drop, List.length_map]
    omega
  obtain ⟨x, restL, heqL⟩ :=
    List.exists_cons_of_ne_nil (List.ne_nil_of_length_pos (by omega :
      0 < ((df.map Bar.low).drop ((df.map Bar.low).length - 20)).length))
  obtain ⟨y, restH, heqH⟩ :=
    List.exists_cons_of_ne_nil (List.ne_nil_of_length_pos (by omega :
      0 < ((df.map Bar.high).drop ((df.map Bar.high).length - 20)).length))
  have hsup : (computeTechnical df).support = PF.num (pyRound 2 (restL.foldl min x)) := by
    show tailMinPF (df.map Bar.low) = _
    unfold tailMinPF
    rw [heqL]
  have hres : (computeTechnical df).resistance = PF.num (pyRound 2 (restH.foldl max y)) := by
    show tailMaxPF (df.map Bar.high) = _
    unfold tailMaxPF
    rw [heqH]
  have hmemL : restL.foldl min x ∈ (df.map Bar.low).drop ((df.map Bar.low).length - 20) := by
    rw [heqL]
    exact foldl_min_mem x restL
  have hmemH : restH.foldl max y ∈ (df.map Bar.high).drop ((df.map Bar.high).length - 20) := by
    rw [heqH]
    exact foldl_max_mem y restH
  have hdropL : (df.drop (df.length - 20)).map Bar.low =
      (df.map Bar.low).drop ((df.map Bar.low).length - 20) := by
    rw [List.map_drop, List.length_map]
  have hdropH : (df.drop (df.length - 20)).map Bar.high =
      (df.map Bar.high).drop ((df.map Bar.high).length - 20) := by
    rw [List.map_drop, List.length_map]
  refine ⟨?_, ?_, ?_⟩
  · intro h50
    show ma50Of (df.map Bar.close) = PF.nan
    unfold ma50Of rollingMeanLast
    rw [if_pos (by rw [List.length_map]; exact h50)]
  · refine ⟨restL.foldl min x, by rw [hdropL]; exact hmemL, ?_, hsup⟩
    intro z hz
    rw [hdropL, heqL] at hz
    rcases List.mem_cons.mp hz with rfl | hz2
    · exact (foldl_min_le z restL).1
    · exact (foldl_min_le x restL).2 z hz2
  · refine ⟨restH.foldl max y, by rw [hdropH]; exact hmemH, ?_, hres⟩
    intro z hz
    rw [hdropH, heqH] at hz
    rcases List.mem_cons.mp hz with rfl | hz2
    · exact (foldl_max_ge z restH).1
    · exact (foldl_max_ge y restH).2 z hz2

/-- C2 counterexample: the claim asserts that with fewer than 20 bars
support and resistance are unavailable (NaN); on a concrete 1-bar series
both are real numbers, because `tail(20)` simply returns the single row. -/
theorem C2_counterexample :
    (computeTechnical [⟨1, 10, 2, 5, 100⟩]).support ≠ PF.nan ∧
    (computeTechnical [⟨1, 10, 2, 5, 100⟩]).resistance ≠ PF.nan := by
  constructor <;> decide

/-- C2 witness: the MA50-unavailability part of the amended theorem at a
concrete short series. -/
theorem C2_witness :
    (computeTechnical [⟨1, 10, 2, 5, 100⟩]).ma50 = PF.nan :=
  (C2_technical_availability [⟨1, 10, 2, 5, 100⟩] (by simp)).1 (by simp)

/-- Division of two finite modelled floats with non-zero divisor. -/
theorem PF_div_num (a b : ℚ) (hb : b ≠ 0) :
    PF.div (PF.num a) (PF.num b) = PF.num (a / b) := by
  simp [PF.div, hb]

/-- Addition of two finite modelled floats. -/
theorem PF_add_num (a b : ℚ) : PF.add (PF.num a) (PF.num b) = PF.num (a + b) := rfl

/-- Subtraction of two finite modelled floats. -/
theorem PF_sub_num (a b : ℚ) : PF.sub (PF.num a) (PF.num b) = PF.num (a + -b) := rfl

/-- The rolling mean with `min_periods=1` of a list of non-negatives is
non-negative. -/
theorem lastRollingMean_nonneg (w : ℕ) (xs : List ℚ) (h : ∀ x ∈ xs, 0 ≤ x) :
    0 ≤ lastRollingMean w xs := by
  unfold lastRollingMean
  apply div_nonneg
  · exact List.sum_nonneg fun x hx => h x (List.mem_of_mem_drop hx)
  · exact Nat.cast_nonneg _

/-- Every element of the gain series is non-negative. -/
theorem gainsOf_nonneg (closes : List ℚ) : ∀ x ∈ gainsOf closes, 0 ≤ x := by
  intro x hx
  unfold gainsOf at hx
  cases closes with
  | nil => simp at hx
  | cons c rest =>
    rcases List.mem_cons.mp hx with rfl | hx2
    · exact le_refl 0
    · obtain ⟨d, _, rfl⟩ := List.mem_map.mp hx2
      by_cases hdp : 0 < d
      · rw [if_pos hdp]
        exact le_of_lt hdp
      · rw [if_neg hdp]

/-- Every element of the loss series is non-negative. -/
theorem lossesOf_nonneg (closes : List ℚ) : ∀ x ∈ lossesOf closes, 0 ≤ x := by
  intro x hx
  unfold lossesOf at hx
  cases closes with
  | nil => simp at hx
  | cons c rest =>
    rcases List.mem_cons.mp hx with rfl | hx2
    · exact le_refl 0
    · obtain ⟨d, _, rfl⟩ := List.mem_map.mp hx2
      by_cases hdn : d < 0
      · rw [if_pos hdn]
        linarith
      · rw [if_neg hdn]

/-- C10: for every close series of at least two bars whose 14-period
average loss at the last bar is non-zero, `calculate_rsi` produces a
finite value inside the closed interval [0, 100]. -/
theorem C10_rsi_bounded (closes : List ℚ) (h2 : 2 ≤ closes.length)
    (hL : lastRollingMean 14 (lossesOf closes) ≠ 0) :
    ∃ r, calculate_rsi closes = PF.num r ∧ 0 ≤ r ∧ r ≤ 100 := by
  have hg0 : 0 ≤ lastRollingMean 14 (gainsOf closes) :=
    lastRollingMean_nonneg _ _ (gainsOf_nonneg closes)
  have hl0 : 0 ≤ lastRollingMean 14 (lossesOf closes) :=
    lastRollingMean_nonneg _ _ (lossesOf_nonneg closes)
  have hx0 : 0 ≤ lastRollingMean 14 (gainsOf closes) / lastRollingMean 14 (lossesOf closes) :=
    div_nonneg hg0 hl0
  have hden : (0 : ℚ) <
      1 + lastRollingMean 14 (gainsOf closes) / lastRollingMean 14 (lossesOf closes) := by
    linarith
  have hstep : calculate_rsi closes =
      PF.num (100 + -(100 /
        (1 + lastRollingMean 14 (gainsOf closes) / lastRollingMean 14 (lossesOf closes)))) := by
    unfold calculate_rsi
    rw [PF_div_num _ _ hL, PF_add_num, PF_div_num _ _ (ne_of_gt hden), PF_sub_num]
  refine ⟨_, hstep, ?_, ?_⟩
  · have hy : 100 /
        (1 + lastRollingMean 14 (gainsOf closes) / lastRollingMean 14 (lossesOf closes)) ≤ 100 :=
      div_le_self (by norm_num) (by linarith)
    linarith
  · have hy : 0 < 100 /
        (1 + lastRollingMean 14 (gainsOf closes) / lastRollingMean 14 (lossesOf closes)) :=
      div_pos (by norm_num) hden
    linarith

/-- C10 witness: a concrete 3-bar series with one losing period has a
finite RSI, via the bound theorem. -/
theorem C10_witness : calculate_rsi ([1, 2, 1] : List ℚ) ≠ PF.nan := by
  have hL : lastRollingMean 14 (lossesOf [1, 2, 1]) ≠ 0 := by
    norm_num [lastRollingMean, lossesOf, priceDeltas]
  obtain ⟨r, hr, _, _⟩ := C10_rsi_bounded [1, 2, 1] (by norm_num) hL
  rw [hr]
  simp

/-- Cache discipline of the yfinance fallback stage: failure leaves the
cache unchanged, success writes exactly the one entry for this input. -/
theorem resolveStage6_cache (env : ResolveEnv) (c : Cache) (input : String) (v : ℕ) :
    ((resolveStage6 env c input v).result = none → (resolveStage6 env c input v).cache = c) ∧
    ∀ t, (resolveStage6 env c input v).result = some t →
      (resolveStage6 env c input v).cache = (input, t) :: c := by
  unfold resolveStage6
  split <;>
    try exact ⟨fun h => by simp_all, fun t ht => by simp_all⟩
  all_goals
    split <;> exact ⟨fun h => by simp_all, fun t ht => by simp_all⟩

/-- Cache discipline of the OpenAI inference stage and below. -/
theorem resolveStage5_cache (env : ResolveEnv) (c : Cache) (input : String) (v : ℕ) :
    ((resolveStage5 env c input v).result = none → (resolveStage5 env c input v).cache = c) ∧
    ∀ t, (resolveStage5 env c input v).result = some t →
      (resolveStage5 env c input v).cache = (input, t) :: c := by
  unfold resolveStage5
  split
  · exact resolveStage6_cache env c input v
  · split
    · split
      · exact ⟨fun h => by simp_all, fun t ht => by simp_all⟩
      · exact resolveStage6_cache env c input _
    · exact resolveStage6_cache env c input v

/-- Cache discipline of the Finnhub-search stage and below. -/
theorem resolveStage4_cache (env : ResolveEnv) (c : Cache) (input : String) (v : ℕ) :
    ((resolveStage4 env c input v).result = none → (resolveStage4 env c input v).cache = c) ∧
    ∀ t, (resolveStage4 env c input v).result = some t →
      (resolveStage4 env c input v).cache = (input, t) :: c := by
  unfold resolveStage4
  split <;>
    first
      | exact ⟨fun h => by simp_all, fun t ht => by simp_all⟩
      | exact resolveStage5_cache env c input _

/-- Cache discipline of the numeric-probing stage and below. -/
theorem resolveStage3_cache (env : ResolveEnv) (c : Cache) (input : String) (v : ℕ) :
    ((resolveStage3 env c input v).result = none → (resolveStage3 env c input v).cache = c) ∧
    ∀ t, (resolveStage3 env c input v).result = some t →
      (resolveStage3 env c input v).cache = (input, t) :: c := by
  unfold resolveStage3
  split
  · split
    · exact ⟨fun h => by simp_all, fun t ht => by simp_all⟩
    · split
      · exact ⟨fun h => by simp_all, fun t ht => by simp_all⟩
      · exact ⟨fun h => by simp_all, fun t ht => by simp_all⟩
  · exact resolveStage4_cache env c input v

/-- Cache discipline of the direct-symbol stage and below. -/
theorem resolveStage2_cache (env : ResolveEnv) (c : Cache) (input : String) (v : ℕ) :
    ((resolveStage2 env c input v).result = none → (resolveStage2 env c input v).cache = c) ∧
    ∀ t, (resolveStage2 env c input v).result = some t →
      (resolveStage2 env c input v).cache = (input, t) :: c := by
  unfold resolveStage2
  split
  · split
    · exact ⟨fun h => by simp_all, fun t ht => by simp_all⟩
    · exact resolveStage3_cache env c input _
  · exact resolveStage3_cache env c input v

/-- Cache discipline of the whole resolver: failure leaves the cache
unchanged; success either was a cache hit (cache unchanged) or wrote
exactly the one entry for the stripped input. -/
theorem resolve_symbol_cache (env : ResolveEnv) (c : Cache) (raw : String) :
    ((resolve_symbol env c raw).result = none → (resolve_symbol env c raw).cache = c) ∧
    ∀ t, (resolve_symbol env c raw).result = some t →
      (List.lookup (pyStrip raw) c = some t ∧ (resolve_symbol env c raw).cache = c) ∨
      (resolve_symbol env c raw).cache = (pyStrip raw, t) :: c := by
  by_cases he : pyStrip raw = ""
  · have hred : resolve_symbol env c raw = ⟨none, c, ⟨0, false, false, false⟩⟩ := by
      unfold resolve_symbol
      rw [if_pos he]
    rw [hred]
    exact ⟨fun _ => rfl, fun t ht => by simp_all⟩
  · rcases hl : List.lookup (pyStrip raw) c with _ | s
    · rcases hm : List.lookup (pyStrip raw) SYMBOL_MAPPINGS with _ | sym
      · have hred : resolve_symbol env c raw = resolveStage2 env c (pyStrip raw) 0 := by
          unfold resolve_symbol
          rw [if_neg he, hl, hm]
        rw [hred]
        exact ⟨(resolveStage2_cache env c (pyStrip raw) 0).1,
          fun t ht => Or.inr ((resolveStage2_cache env c (pyStrip raw) 0).2 t ht)⟩
      · by_cases ha : profileAccepted (env.profile sym) = true
        · have hred : resolve_symbol env c raw =
              ⟨some sym, (pyStrip raw, sym) :: c, ⟨1, false, false, false⟩⟩ := by
            unfold resolve_symbol
            rw [if_neg he, hl, hm]
            simp [ha]
          rw [hred]
          refine ⟨fun h => by simp_all, fun t ht => ?_⟩
          simp only [Option.some.injEq] at ht
          subst ht
          exact Or.inr rfl
        · have hred : resolve_symbol env c raw = resolveStage2 env c (pyStrip raw) 1 := by
            unfold resolve_symbol
            rw [if_neg he, hl, hm]
            simp [ha]
          rw [hred]
          exact ⟨(resolveStage2_cache env c (pyStrip raw) 1).1,
            fun t ht => Or.inr ((resolveStage2_cache env c (pyStrip raw) 1).2 t ht)⟩
    · have hred : resolve_symbol env c raw = ⟨some s, c, ⟨0, false, false, false⟩⟩ := by
        unfold resolve_symbol
        rw [if_neg he, hl]
      rw [hred]
      refine ⟨fun h => by simp_all, fun t ht => ?_⟩
      simp only [Option.some.injEq] at ht
      subst ht
      exact Or.inl ⟨rfl, rfl⟩

/-- A successful resolution implies the stripped input was non-empty. -/
theorem resolve_symbol_ne_empty (env : ResolveEnv) (c : Cache) (raw t : String)
    (h : (resolve_symbol env c raw).result = some t) : pyStrip raw ≠ "" := by
  intro he
  have hred : resolve_symbol env c raw = ⟨none, c, ⟨0, false, false, false⟩⟩ := by
    unfold resolve_symbol
    rw [if_pos he]
  rw [hred] at h
  simp at h

/-- C7: when every cascade stage fails, `resolve_symbol` returns the
`None` sentinel (the embedding is total: every fallible stage catches its
own exception, so no exception escapes) and leaves the session cache
unchanged; a successful non-cache-hit resolution writes exactly one new
cache entry, keyed by the stripped raw input. -/
theorem C7_failure_no_cache (env : ResolveEnv) (c : Cache) (raw : String) :
    ((resolve_symbol env c raw).result = none → (resolve_symbol env c raw).cache = c) ∧
    (∀ t, (resolve_symbol env c raw).result = some t → List.lookup (pyStrip raw) c = none →
      (resolve_symbol env c raw).cache = (pyStrip raw, t) :: c) := by
  refine ⟨(resolve_symbol_cache env c raw).1, fun t ht hnc => ?_⟩
  rcases (resolve_symbol_cache env c raw).2 t ht with ⟨h1, _⟩ | h2
  · rw [hnc] at h1
    cases h1
  · exact h2

/-- C6: resolution is idempotent within a session — when a call resolves
the raw input to some ticker, calling again with the resulting cache
returns the identical ticker from the cache, with zero validation calls
and no search/inference/fallback stage invoked, and the cache unchanged. -/
theorem C6_idempotent (env : ResolveEnv) (c : Cache) (raw t : String)
    (h : (resolve_symbol env c raw).result = some t) :
    resolve_symbol env (resolve_symbol env c raw).cache raw =
      ⟨some t, (resolve_symbol env c raw).cache, ⟨0, false, false, false⟩⟩ := by
  have hne := resolve_symbol_ne_empty env c raw t h
  have hl : List.lookup (pyStrip raw) (resolve_symbol env c raw).cache = some t := by
    rcases (resolve_symbol_cache env c raw).2 t h with ⟨h1, h2⟩ | h2
    · rw [h2]
      exact h1
    · rw [h2]
      simp [List.lookup]
  generalize hout : (resolve_symbol env c raw).cache = cc at hl ⊢
  unfold resolve_symbol
  rw [if_neg hne, hl]

/-- C4: a non-empty, non-cached input that is a static-mapping key whose
mapped ticker passes the profile gate resolves to the mapped ticker with
exactly one validation call, without invoking the Finnhub-search, OpenAI
or yfinance stages. -/
theorem C4_mapping_short_circuit (env : ResolveEnv) (c : Cache) (raw t : String)
    (hne : pyStrip raw ≠ "")
    (hc : List.lookup (pyStrip raw) c = none)
    (hm : List.lookup (pyStrip raw) SYMBOL_MAPPINGS = some t)
    (hacc : profileAccepted (env.profile t) = true) :
    resolve_symbol env c raw = ⟨some t, (pyStrip raw, t) :: c, ⟨1, false, false, false⟩⟩ := by
  unfold resolve_symbol
  rw [if_neg hne, hc, hm]
  simp [hacc]

/-- The empty string is not all-digits. -/
theorem pyIsdigit_ne_empty (s : String) (h : pyIsdigit s = true) : s ≠ "" := by
  intro he
  subst he
  exact absurd h (by decide)

/-- An all-digit string contains no dot. -/
theorem pyIsdigit_no_dot (s : String) (h : pyIsdigit s = true) :
    strContainsChar s '.' = false := by
  unfold pyIsdigit at h
  unfold strContainsChar
  rw [Bool.and_eq_true] at h
  obtain ⟨h1, h2⟩ := h
  by_contra hcon
  have hc2 : s.toList.contains '.' = true := by
    cases hcc : s.toList.contains '.'
    · exact absurd hcc hcon
    · rfl
  have hmem : '.' ∈ s.toList := by
    rw [List.contains] at hc2
    exact List.elem_iff.mp hc2
  have hdig := List.all_eq_true.mp h2 '.' hmem
  exact absurd hdig (by decide)

/-- C5: a purely numeric, non-cached, non-mapped input probes `.TW` then
`.TWO` in that order, returns the first candidate passing the profile
gate (one validation call when `.TW` succeeds, two otherwise), and on
double failure returns `None` — the search, OpenAI and yfinance stages
are never invoked. -/
theorem C5_numeric_probe (env : ResolveEnv) (c : Cache) (raw : String)
    (hd : pyIsdigit (pyStrip raw) = true)
    (hc : List.lookup (pyStrip raw) c = none)
    (hm : List.lookup (pyStrip raw) SYMBOL_MAPPINGS = none) :
    resolve_symbol env c raw =
      (if profileAccepted (env.profile (pyStrip raw ++ ".TW")) then
        ⟨some (pyStrip raw ++ ".TW"), (pyStrip raw, pyStrip raw ++ ".TW") :: c,
          ⟨1, false, false, false⟩⟩
      else if profileAccepted (env.profile (pyStrip raw ++ ".TWO")) then
        ⟨some (pyStrip raw ++ ".TWO"), (pyStrip raw, pyStrip raw ++ ".TWO") :: c,
          ⟨2, false, false, false⟩⟩
      else ⟨none, c, ⟨2, false, false, false⟩⟩) := by
  have hne := pyIsdigit_ne_empty _ hd
  have hnd := pyIsdigit_no_dot _ hd
  have hred : resolve_symbol env c raw = resolveStage2 env c (pyStrip raw) 0 := by
    unfold resolve_symbol
    rw [if_neg hne, hc, hm]
  rw [hred]
  unfold resolveStage2 resolveStage3
  rw [hnd, hd]
  simp

/-- C4 witness: resolving `"TSMC"` through the static mapping. -/
theorem C4_witness :
    resolve_symbol envAccept [] "TSMC" =
      ⟨some "2330.TW", [("TSMC", "2330.TW")], ⟨1, false, false, false⟩⟩ :=
  C4_mapping_short_circuit envAccept [] "TSMC" "2330.TW" (by decide) rfl rfl rfl

/-- C5 witness: a numeric input both of whose suffix probes fail returns
not-found with two validation calls and an unchanged cache. -/
theorem C5_witness :
    resolve_symbol envReject [] "9999999" = ⟨none, [], ⟨2, false, false, false⟩⟩ := by
  have h := C5_numeric_probe envReject [] "9999999" (by decide) rfl rfl
  rw [h]
  rfl

/-- C6 witness: the second resolution of `"台積電"` is served from cache. -/
theorem C6_witness :
    resolve_symbol envAccept (resolve_symbol envAccept [] "台積電").cache "台積電" =
      ⟨some "2330.TW", (resolve_symbol envAccept [] "台積電").cache,
        ⟨0, false, false, false⟩⟩ :=
  C6_idempotent envAccept [] "台積電" "2330.TW" rfl

/-- C7 witness: a failed resolution leaves the cache empty; a successful
one writes exactly one entry. -/
theorem C7_witness :
    (resolve_symbol envReject [] "unknown-name").cache = [] ∧
    (resolve_symbol envAccept [] "TSMC").cache = [("TSMC", "2330.TW")] :=
  ⟨(C7_failure_no_cache envReject [] "unknown-name").1 rfl,
   (C7_failure_no_cache envAccept [] "TSMC").2 "2330.TW" rfl rfl⟩
